import Mathlib

/-!
# Shallow embedding of `vtkParallelCoordinatesActor` (VTK, Rendering)

This file embeds the geometric core of
`src/Rendering/vtkParallelCoordinatesActor.cxx` — the `PlaceAxes` layout and
polyline-generation algorithm, the `Initialize` reset, and the `RenderOverlay`
guard — and proves/refutes the frozen specification claims about it.

Modelling conventions:
* C `float`/`double` values are modelled as exact rationals `ℚ`;
* viewport coordinates (`int*` from `GetComputedViewportValue`) are `ℤ`;
* the C cast `(int)` of a float truncates toward zero (`cIntCast`);
* a `vtkFieldData` is a table: `numComponents` columns, a list of per-array
  tuple counts, and a component accessor `comp tuple column`;
* a `vtkCellArray` cell is the pair of the size written by `InsertNextCell`
  and the list of vertices inserted by `InsertCellPoint`; point ids issued by
  `InsertNextPoint` are consecutive, so each cell carries its vertices inline.
-/

namespace VTKPC

/-- Independent-variable mode: `VTK_IV_COLUMN` or `VTK_IV_ROW`. -/
inductive IVMode where
  | column
  | row
deriving DecidableEq, Repr

/-- `VTK_LARGE_ID`: sanity upper bound on `vtkIdType` values. -/
def VTK_LARGE_ID : ℤ := 2147483647

/-- `VTK_LARGE_FLOAT` (1.0e+38), the scan's initial min sentinel. -/
def VTK_LARGE_FLOAT : ℚ := 10 ^ 38

/-- The input table behind `input->GetFieldData()`: number of components
("columns"), the tuple count of each contained array, and the component
accessor `GetComponent(tuple, component)`. -/
structure FieldData where
  numComponents : ℕ
  tupleCounts : List ℤ
  comp : ℕ → ℕ → ℚ

/-- The C cast `(int)` applied to an exact value: truncation toward zero. -/
def cIntCast (q : ℚ) : ℤ := if 0 ≤ q then ⌊q⌋ else ⌈q⌉

/-- Lines 301–312: `numRows` starts at `VTK_LARGE_ID` and is lowered to every
smaller `GetNumberOfTuples()` over the field's arrays. -/
def computeNumRows (f : FieldData) : ℤ :=
  f.tupleCounts.foldl (fun numRows numTuples =>
    if numTuples < numRows then numTuples else numRows) VTK_LARGE_ID

/-- Lines 315–322: `N = numColumns` in `VTK_IV_COLUMN` mode, else `numRows`. -/
def computeN (f : FieldData) (mode : IVMode) : ℤ :=
  match mode with
  | .column => (f.numComponents : ℤ)
  | .row => computeNumRows f

/-- Lines 337, 345–356 (inner loop for one range index): fold of
`if (v < Mins[j]) Mins[j] = v` starting from `VTK_LARGE_FLOAT`. -/
def scanMin (vs : List ℚ) : ℚ :=
  vs.foldl (fun m v => if v < m then v else m) VTK_LARGE_FLOAT

/-- Lines 338, 345–356 (inner loop for one range index): fold of
`if (v > Maxs[j]) Maxs[j] = v` starting from `-VTK_LARGE_FLOAT`. -/
def scanMax (vs : List ℚ) : ℚ :=
  vs.foldl (fun m v => if m < v then v else m) (-VTK_LARGE_FLOAT)

/-- The values the min/max scan observes for range index `j`:
column mode (line 347) reads `GetComponent(i, j)` for `i < numRows`;
row mode (line 365) reads `GetComponent(j, i)` for `i < numColumns`. -/
def axisValues (f : FieldData) (mode : IVMode) (numRows numColumns j : ℕ) :
    List ℚ :=
  match mode with
  | .column => (List.range numRows).map (fun i => f.comp i j)
  | .row => (List.range numColumns).map (fun i => f.comp j i)

/-- Line 414: `Xs[i] = (int)(p1[0] + (float)i/((float)N) * (p2[0]-p1[0]))`. -/
def xPosition (p1x p2x : ℤ) (n i : ℕ) : ℤ :=
  cIntCast ((p1x : ℚ) + (i : ℚ) / (n : ℚ) * ((p2x : ℚ) - (p1x : ℚ)))

/-- Lines 438–447 / 463–472: the vertex `x[1]` for value `v` on an axis with
range `(mn, mx)` and vertical span `(yMin, yMax)`.  NOTE: the degenerate
branch is `0.5 * (YMax - YMin)` exactly as written in the source, which is
half the span's height, not the midpoint of the span. -/
def vertexY (yMin yMax : ℤ) (mn mx v : ℚ) : ℚ :=
  if mx - mn = 0 then
    (1 / 2 : ℚ) * ((yMax : ℚ) - (yMin : ℚ))
  else
    (yMin : ℚ) + ((v - mn) / (mx - mn)) * ((yMax : ℚ) - (yMin : ℚ))

/-- A generated point `x[3]` (line 427; `x[2] = 0.0` is set once). -/
structure Vertex where
  x : ℚ
  y : ℚ
  z : ℚ
deriving DecidableEq, Repr

/-- One `vtkCellArray` cell: the count written by `InsertNextCell` and the
points inserted by `InsertCellPoint` (ids are consecutive, vertices inline). -/
structure Cell where
  declaredSize : ℤ
  pts : List Vertex
deriving DecidableEq, Repr

/-- Lines 431–451, one iteration of the outer loop (`VTK_IV_COLUMN`):
`InsertNextCell(numColumns)`, then for `i < numColumns` a vertex at
`(Xs[i], vertexY .. (GetComponent(j, i)), 0)`. -/
def makeCellColumn (f : FieldData) (numColumns : ℕ) (mins maxs : List ℚ)
    (xs : List ℤ) (yMin yMax : ℤ) (j : ℕ) : Cell :=
  { declaredSize := (numColumns : ℤ)
    pts := (List.range numColumns).map (fun i =>
      { x := ((xs.getD i 0 : ℤ) : ℚ)
        y := vertexY yMin yMax (mins.getD i 0) (maxs.getD i 0) (f.comp j i)
        z := 0 }) }

/-- Lines 456–476, one iteration of the outer loop (`VTK_IV_ROW`):
`InsertNextCell(numColumns)` — the source passes `numColumns` here although
the loop then inserts `numRows` points — then for `i < numRows` a vertex at
`(Xs[i], vertexY .. (GetComponent(i, j)), 0)`. -/
def makeCellRow (f : FieldData) (numRows numColumns : ℕ) (mins maxs : List ℚ)
    (xs : List ℤ) (yMin yMax : ℤ) (j : ℕ) : Cell :=
  { declaredSize := (numColumns : ℤ)
    pts := (List.range numRows).map (fun i =>
      { x := ((xs.getD i 0 : ℤ) : ℚ)
        y := vertexY yMin yMax (mins.getD i 0) (maxs.getD i 0) (f.comp i j)
        z := 0 }) }

/-- The result of a successful `PlaceAxes` pass: `N`, the per-axis ranges and
x-positions, the vertical span, and the generated polyline cells. -/
structure Layout where
  n : ℕ
  mins : List ℚ
  maxs : List ℚ
  xs : List ℤ
  yMin : ℤ
  yMax : ℤ
  cells : List Cell
deriving DecidableEq, Repr

/-- The axis count actually used for array sizes after the guard passed. -/
def layoutN (f : FieldData) (mode : IVMode) : ℕ := (computeN f mode).toNat

/-- Lines 333–376: the `Mins` array after the scan. -/
def layoutMins (f : FieldData) (mode : IVMode) : List ℚ :=
  (List.range (layoutN f mode)).map
    (fun j => scanMin (axisValues f mode (computeNumRows f).toNat
      f.numComponents j))

/-- Lines 334–376: the `Maxs` array after the scan. -/
def layoutMaxs (f : FieldData) (mode : IVMode) : List ℚ :=
  (List.range (layoutN f mode)).map
    (fun j => scanMax (axisValues f mode (computeNumRows f).toNat
      f.numComponents j))

/-- Lines 403–417: the `Xs` array. -/
def layoutXs (f : FieldData) (mode : IVMode) (p1 p2 : ℤ × ℤ) : List ℤ :=
  (List.range (layoutN f mode)).map
    (xPosition p1.1 p2.1 (layoutN f mode))

/-- Lines 428–477: the generated polyline cells, per mode. -/
def layoutCells (f : FieldData) (mode : IVMode) (p1 p2 : ℤ × ℤ) :
    List Cell :=
  match mode with
  | .column => (List.range (computeNumRows f).toNat).map
      (makeCellColumn f f.numComponents (layoutMins f mode)
        (layoutMaxs f mode) (layoutXs f mode p1 p2) p1.2 p2.2)
  | .row => (List.range f.numComponents).map
      (makeCellRow f (computeNumRows f).toNat f.numComponents
        (layoutMins f mode) (layoutMaxs f mode) (layoutXs f mode p1 p2)
        p1.2 p2.2)

/-- The complete result of the success path of `PlaceAxes`. -/
def theLayout (f : FieldData) (mode : IVMode) (p1 p2 : ℤ × ℤ) : Layout :=
  { n := layoutN f mode
    mins := layoutMins f mode
    maxs := layoutMaxs f mode
    xs := layoutXs f mode p1 p2
    yMin := p1.2
    yMax := p2.2
    cells := layoutCells f mode p1 p2 }

/-- Lines 285–483, `PlaceAxes` as a pure function of the field (possibly
absent, line 294), the mode, and the plot-region corners `p1`, `p2`
(viewport ints).  `none` is the `return 0` failure path; the guard is the
source's `if (this->N <= 0 || this->N >= VTK_LARGE_ID)` (line 324). -/
def placeAxes (field : Option FieldData) (mode : IVMode) (p1 p2 : ℤ × ℤ) :
    Option Layout :=
  match field with
  | none => none
  | some f =>
    if computeN f mode ≤ 0 ∨ VTK_LARGE_ID ≤ computeN f mode then
      none
    else
      some (theLayout f mode p1 p2)

/-- One `vtkAxisActor2D` as configured by lines 386–402 and 415–416: its data
range and its two endpoint coordinates. -/
structure AxisObj where
  rangeMin : ℚ
  rangeMax : ℚ
  point1 : ℤ × ℤ
  point2 : ℤ × ℤ
deriving DecidableEq, Repr

/-- The actor state touched by `Initialize`, `PlaceAxes` and `RenderOverlay`:
`N`, the four per-axis arrays (null = `none`), the plot polydata, the input,
and the title.  The constructor (lines 44–51) gives the all-null state. -/
structure ActorState where
  n : ℤ
  axes : Option (List AxisObj)
  mins : Option (List ℚ)
  maxs : Option (List ℚ)
  xs : Option (List ℤ)
  plotData : List Cell
  input : Option FieldData
  title : Option String

/-- Lines 127–145, `Initialize`: frees the four arrays only when `Axes` is
non-null, and always sets `N = 0`. -/
def initializeSt (s : ActorState) : ActorState :=
  if s.axes.isSome then
    { s with axes := none, mins := none, maxs := none, xs := none, n := 0 }
  else
    { s with n := 0 }

/-- Lines 386–402 and 415–416: the axis actors a successful pass creates. -/
def mkAxes (L : Layout) : List AxisObj :=
  (List.range L.n).map (fun i =>
    { rangeMin := L.mins.getD i 0
      rangeMax := L.maxs.getD i 0
      point1 := (L.xs.getD i 0, L.yMin)
      point2 := (L.xs.getD i 0, L.yMax) })

/-- `PlaceAxes` as a state transformer: `Initialize` first (line 292), then
either the failure path (`N = 0`, arrays untouched since `Initialize`,
old `PlotData` kept — line 420 runs only on success) or the success path
installing the freshly computed arrays and geometry. -/
def placeAxesSt (s : ActorState) (mode : IVMode) (p1 p2 : ℤ × ℤ) :
    ActorState :=
  let s0 := initializeSt s
  match placeAxes s.input mode p1 p2 with
  | none => { s0 with n := 0 }
  | some L =>
      { s0 with
        n := (L.n : ℤ)
        axes := some (mkAxes L)
        mins := some L.mins
        maxs := some L.maxs
        xs := some L.xs
        plotData := L.cells }

/-- What `RenderOverlay` draws, in order. -/
inductive DrawCmd where
  | title
  | plot
  | axis (i : ℕ)
deriving DecidableEq, Repr

/-- The outcome of `RenderOverlay`: its return value, whether the
`vtkErrorMacro` path fired, and the delegated draws in order. -/
structure RenderOutcome where
  result : ℤ
  errored : Bool
  drawn : List DrawCmd
deriving DecidableEq, Repr

/-- Lines 149–174, `RenderOverlay`.  The delegated renderers are external
collaborators, so their return values are parameters (`titleR`, `plotR`,
`axisR i`). -/
def renderOverlay (s : ActorState) (titleR plotR : ℤ) (axisR : ℕ → ℤ) :
    RenderOutcome :=
  if s.input.isNone ∨ s.n ≤ 0 then
    { result := 0, errored := true, drawn := [] }
  else
    let titlePart := if s.title.isSome then titleR else 0
    let titleDrawn := if s.title.isSome then [DrawCmd.title] else []
    { result := titlePart + plotR + ((List.range s.n.toNat).map axisR).sum
      errored := false
      drawn := titleDrawn ++ [DrawCmd.plot] ++
        (List.range s.n.toNat).map DrawCmd.axis }

/-- The consistency invariant relating `N` and the per-axis arrays: either
the all-null `N = 0` state or all four arrays allocated with length `N`. -/
def consistentState (s : ActorState) : Prop :=
  (s.n = 0 ∧ s.axes = none ∧ s.mins = none ∧ s.maxs = none ∧ s.xs = none) ∨
  (0 < s.n ∧ ∃ a mn mx xl,
    s.axes = some a ∧ s.mins = some mn ∧ s.maxs = some mx ∧ s.xs = some xl ∧
    a.length = s.n.toNat ∧ mn.length = s.n.toNat ∧
    mx.length = s.n.toNat ∧ xl.length = s.n.toNat)

/-! ## Helper lemmas -/

theorem getD_map_range {α : Type} (g : ℕ → α) (n j : ℕ) (hj : j < n)
    (d : α) : ((List.range n).map g).getD j d = g j := by
  simp [List.getD_eq_getElem?_getD, List.getElem?_map, List.getElem?_range hj]

theorem foldlMin_le_init {α : Type} [LinearOrder α] (l : List α) (a : α) :
    l.foldl (fun m v => if v < m then v else m) a ≤ a := by
  induction l generalizing a with
  | nil => exact le_refl a
  | cons x xs ih =>
      by_cases h : x < a
      · simpa [List.foldl_cons, h] using le_trans (ih x) h.le
      · simpa [List.foldl_cons, h] using ih a

theorem foldlMin_le_mem {α : Type} [LinearOrder α] (l : List α) (a v : α)
    (hv : v ∈ l) : l.foldl (fun m v => if v < m then v else m) a ≤ v := by
  induction l generalizing a with
  | nil => cases hv
  | cons x xs ih =>
      rcases List.mem_cons.mp hv with rfl | hv'
      · have hx : (if v < a then v else a) ≤ v := by
          by_cases h : v < a
          · simp [h]
          · simpa [h] using le_of_not_lt h
        simpa [List.foldl_cons] using le_trans (foldlMin_le_init xs _) hx
      · simpa [List.foldl_cons] using ih _ hv'

theorem init_le_foldlMax {α : Type} [LinearOrder α] (l : List α) (a : α) :
    a ≤ l.foldl (fun m v => if m < v then v else m) a := by
  induction l generalizing a with
  | nil => exact le_refl a
  | cons x xs ih =>
      by_cases h : a < x
      · simpa [List.foldl_cons, h] using le_trans h.le (ih x)
      · simpa [List.foldl_cons, h] using ih a

theorem mem_le_foldlMax {α : Type} [LinearOrder α] (l : List α) (a v : α)
    (hv : v ∈ l) : v ≤ l.foldl (fun m v => if m < v then v else m) a := by
  induction l generalizing a with
  | nil => cases hv
  | cons x xs ih =>
      rcases List.mem_cons.mp hv with rfl | hv'
      · have hx : v ≤ (if a < v then v else a) := by
          by_cases h : a < v
          · simp [h]
          · simpa [h] using le_of_not_lt h
        simpa [List.foldl_cons] using le_trans hx (init_le_foldlMax xs _)
      · simpa [List.foldl_cons] using ih _ hv'

theorem foldlMin_eq_init_or_mem {α : Type} [LinearOrder α] (l : List α)
    (a : α) :
    l.foldl (fun m v => if v < m then v else m) a = a ∨
    l.foldl (fun m v => if v < m then v else m) a ∈ l := by
  induction l generalizing a with
  | nil => exact Or.inl rfl
  | cons x xs ih =>
      rw [List.foldl_cons]
      rcases ih (if x < a then x else a) with h | h
      · by_cases hx : x < a
        · right
          rw [h, if_pos hx]
          exact List.mem_cons_self x xs
        · left
          rw [h, if_neg hx]
      · right
        exact List.mem_cons_of_mem x h

/-- Inversion for a successful `PlaceAxes` pass. -/
theorem placeAxes_some_inv {f : FieldData} {mode : IVMode} {p1 p2 : ℤ × ℤ}
    {L : Layout} (hL : placeAxes (some f) mode p1 p2 = some L) :
    0 < computeN f mode ∧ computeN f mode < VTK_LARGE_ID ∧
    L = theLayout f mode p1 p2 := by
  by_cases hg : computeN f mode ≤ 0 ∨ VTK_LARGE_ID ≤ computeN f mode
  · simp [placeAxes, hg] at hL
  · push_neg at hg
    refine ⟨hg.1, hg.2, ?_⟩
    have : some (theLayout f mode p1 p2) = some L := by
      simpa [placeAxes, not_or, hg.1.not_le, hg.2.not_le] using hL
    exact (Option.some.injEq _ _ ▸ this).symm

theorem cIntCast_intCast (z : ℤ) : cIntCast (z : ℚ) = z := by
  unfold cIntCast
  split <;> simp

/-! ## Claim theorems -/

/-- **C1** (code bug): the claim says that for a degenerate axis
(`max - min == 0`) every generated vertex lands at the vertical midpoint
`(Ymin + Ymax)/2` in both modes.  The source computes
`0.5 * (YMax - YMin)` (lines 440 and 465), which is half the span's height,
not its midpoint.  With span `[100, 300]` and a constant field (value 5),
every generated vertex has `y = 100` in both modes, while the claimed
midpoint is `(100 + 300)/2 = 200`. -/
theorem c1_degenerate_vertex_misses_midpoint :
    (placeAxes (some ⟨1, [2], fun _ _ => 5⟩) IVMode.column (100, 100)
        (200, 300)).map (fun L => L.cells.map (fun c => c.pts.map Vertex.y))
      = some [[100], [100]] ∧
    (placeAxes (some ⟨2, [1], fun _ _ => 5⟩) IVMode.row (100, 100)
        (200, 300)).map (fun L => L.cells.map (fun c => c.pts.map Vertex.y))
      = some [[100], [100]] ∧
    ((100 : ℚ) + 300) / 2 = 200 ∧ (100 : ℚ) ≠ 200 := by
  refine ⟨?_, ?_, by norm_num, by norm_num⟩ <;>
    norm_num [placeAxes, theLayout, layoutXs, layoutMins, layoutMaxs,
      layoutCells, layoutN, computeN, computeNumRows, xPosition, cIntCast,
      makeCellColumn, makeCellRow, vertexY, scanMin, scanMax, axisValues,
      VTK_LARGE_ID, VTK_LARGE_FLOAT, List.range_succ,
      show (1 : ℤ).toNat = 1 from rfl, show (2 : ℤ).toNat = 2 from rfl]

/-- **C2** (code bug): the claim says each generated polyline has exactly
`N` vertices in both modes.  In `VTK_IV_ROW` mode the source calls
`InsertNextCell(numColumns)` (line 458) but then inserts `numRows = N`
points, so with 2 columns and 3 rows (`N = 3`) each of the two generated
cells declares 2 vertices while holding 3 inserted points — a malformed
cell array whenever `numRows ≠ numColumns`. -/
theorem c2_by_row_cell_declared_size_mismatch :
    (placeAxes (some ⟨2, [3], fun i j => (i : ℚ) + 10 * j⟩) IVMode.row
        (0, 0) (10, 10)).map
      (fun L => ((L.n : ℤ),
        L.cells.map (fun c => (c.declaredSize, (c.pts.length : ℤ)))))
      = some (3, [(2, 3), (2, 3)]) ∧ (2 : ℤ) ≠ 3 := by
  exact ⟨rfl, by decide⟩

/-- **C3** (counterexample): the claim asserts the axis x-positions are
always strictly increasing, but the `(int)` truncation in
`Xs[i] = (int)(p1[0] + (float)i/N * (p2[0]-p1[0]))` collapses neighbouring
positions whenever the plot width is smaller than `N`: with `N = 2`,
`p1 = (0,0)`, `p2 = (1,10)` the layout succeeds and produces `Xs = [0, 0]`,
which is not strictly increasing (and `x_1 = 0 ≠ 0 + (1/2)·1`). -/
theorem c3_xs_not_strictly_increasing :
    (placeAxes (some ⟨2, [1], fun _ _ => 0⟩) IVMode.column (0, 0)
        (1, 10)).map Layout.xs = some [0, 0] ∧
    ¬ List.Pairwise (fun a b : ℤ => a < b) [(0 : ℤ), 0] := by
  refine ⟨?_, by decide⟩
  norm_num [placeAxes, theLayout, layoutXs, layoutMins, layoutMaxs,
    layoutCells, layoutN, computeN, computeNumRows, xPosition, cIntCast,
    VTK_LARGE_ID, List.range_succ, show (2 : ℤ).toNat = 2 from rfl]

/-- **C3 (amended)**: for every successful layout, the axis x-positions are
`x_i = (int)(p1.x + (i/N)·(p2.x − p1.x))` — the `(int)` truncation included —
and `x_0 = p1.x`; when additionally `p1.x ≥ 0` and the plot width
`p2.x − p1.x` is at least `N`, the positions are strictly increasing and the
last axis `x_{N−1}` stays strictly left of `p2.x`. -/
theorem c3_axis_positions_amended
    (f : FieldData) (mode : IVMode) (p1 p2 : ℤ × ℤ) (L : Layout)
    (hL : placeAxes (some f) mode p1 p2 = some L)
    (hp1 : 0 ≤ p1.1) (hw : (L.n : ℤ) ≤ p2.1 - p1.1) :
    (∀ i, i < L.n → L.xs.getD i 0 =
      cIntCast ((p1.1 : ℚ) + (i : ℚ) / (L.n : ℚ) *
        ((p2.1 : ℚ) - (p1.1 : ℚ)))) ∧
    L.xs.getD 0 0 = p1.1 ∧
    (∀ i, i + 1 < L.n → L.xs.getD i 0 < L.xs.getD (i + 1) 0) ∧
    L.xs.getD (L.n - 1) 0 < p2.1 := by
  obtain ⟨hpos, -, rfl⟩ := placeAxes_some_inv hL
  simp only [theLayout] at hw ⊢
  have hn0 : 0 < layoutN f mode := by
    unfold layoutN; omega
  have hxs : layoutXs f mode p1 p2 =
      (List.range (layoutN f mode)).map
        (xPosition p1.1 p2.1 (layoutN f mode)) := rfl
  have hgetD : ∀ i, i < layoutN f mode →
      (layoutXs f mode p1 p2).getD i 0 =
        xPosition p1.1 p2.1 (layoutN f mode) i := by
    intro i hi
    rw [hxs]
    exact getD_map_range _ _ i hi 0
  have hnQ : (0 : ℚ) < (layoutN f mode : ℚ) := by exact_mod_cast hn0
  have hdQ : ((layoutN f mode : ℕ) : ℚ) ≤ ((p2.1 : ℚ) - (p1.1 : ℚ)) := by
    have h2 : ((layoutN f mode : ℤ) : ℚ) ≤ ((p2.1 - p1.1 : ℤ) : ℚ) := by
      exact_mod_cast hw
    push_cast at h2
    linarith
  have hd1 : (1 : ℚ) ≤ ((p2.1 : ℚ) - (p1.1 : ℚ)) / (layoutN f mode : ℚ) := by
    rw [le_div_iff₀ hnQ]
    linarith
  have hval : ∀ i : ℕ, (0 : ℚ) ≤
      (p1.1 : ℚ) + (i : ℚ) / (layoutN f mode : ℚ) *
        ((p2.1 : ℚ) - (p1.1 : ℚ)) := by
    intro i
    have h1 : (0 : ℚ) ≤ (i : ℚ) / (layoutN f mode : ℚ) := by positivity
    have h2 : (0 : ℚ) ≤ (p2.1 : ℚ) - (p1.1 : ℚ) := by linarith
    have := mul_nonneg h1 h2
    have hp1Q : (0 : ℚ) ≤ (p1.1 : ℚ) := by exact_mod_cast hp1
    linarith
  have hfloor : ∀ i : ℕ, xPosition p1.1 p2.1 (layoutN f mode) i =
      ⌊(p1.1 : ℚ) + (i : ℚ) / (layoutN f mode : ℚ) *
        ((p2.1 : ℚ) - (p1.1 : ℚ))⌋ := by
    intro i
    unfold xPosition cIntCast
    rw [if_pos (hval i)]
  refine ⟨fun i hi => hgetD i hi, ?_, ?_, ?_⟩
  · rw [hgetD 0 hn0]
    unfold xPosition
    norm_num [cIntCast_intCast]
  · intro i hi
    rw [hgetD i (by omega), hgetD (i+1) hi, hfloor, hfloor]
    have hstep : (p1.1 : ℚ) + (i : ℚ) / (layoutN f mode : ℚ) *
          ((p2.1 : ℚ) - (p1.1 : ℚ)) + 1 ≤
        (p1.1 : ℚ) + ((i+1 : ℕ) : ℚ) / (layoutN f mode : ℚ) *
          ((p2.1 : ℚ) - (p1.1 : ℚ)) := by
      push_cast
      have : ((i : ℚ) + 1) / (layoutN f mode : ℚ) *
            ((p2.1 : ℚ) - (p1.1 : ℚ)) -
          (i : ℚ) / (layoutN f mode : ℚ) * ((p2.1 : ℚ) - (p1.1 : ℚ)) =
          ((p2.1 : ℚ) - (p1.1 : ℚ)) / (layoutN f mode : ℚ) := by
        field_simp
        ring
      linarith
    have := Int.floor_le_floor hstep
    rw [Int.floor_add_one] at this
    omega
  · rw [hgetD (layoutN f mode - 1) (by omega), hfloor]
    have hcast : (((layoutN f mode - 1 : ℕ)) : ℚ) =
        (layoutN f mode : ℚ) - 1 := by
      have := hn0
      push_cast [Nat.cast_sub (by omega : 1 ≤ layoutN f mode)]
      ring
    have hle : (p1.1 : ℚ) + ((layoutN f mode - 1 : ℕ) : ℚ) /
          (layoutN f mode : ℚ) * ((p2.1 : ℚ) - (p1.1 : ℚ)) ≤
        (p2.1 : ℚ) - 1 := by
      rw [hcast]
      have hexp : ((layoutN f mode : ℚ) - 1) / (layoutN f mode : ℚ) *
            ((p2.1 : ℚ) - (p1.1 : ℚ)) =
          ((p2.1 : ℚ) - (p1.1 : ℚ)) -
            ((p2.1 : ℚ) - (p1.1 : ℚ)) / (layoutN f mode : ℚ) := by
        field_simp
        ring
      rw [hexp]
      linarith
    have h2 : ⌊(p1.1 : ℚ) + ((layoutN f mode - 1 : ℕ) : ℚ) /
          (layoutN f mode : ℚ) * ((p2.1 : ℚ) - (p1.1 : ℚ))⌋ ≤ p2.1 - 1 := by
      have := Int.floor_le_floor (le_trans hle (by norm_num :
        ((p2.1 : ℚ) - 1 ≤ ((p2.1 - 1 : ℤ) : ℚ))))
      simpa using this
    omega

/-- Witness for `c3_axis_positions_amended`: a field with two columns over
the plot region `p1 = (0,0)`, `p2 = (10,10)` gives `Xs = [0, 5]`, strictly
increasing, starting at `p1.x` and ending left of `p2.x`. -/
theorem c3_axis_positions_amended_witness :
    (theLayout ⟨2, [1], fun _ _ => 0⟩ IVMode.column (0, 0) (10, 10)).xs.getD
        0 0 = 0 ∧
    (theLayout ⟨2, [1], fun _ _ => 0⟩ IVMode.column (0, 0) (10, 10)).xs.getD
        0 0 <
      (theLayout ⟨2, [1], fun _ _ => 0⟩ IVMode.column (0, 0) (10, 10)).xs.getD
        1 0 ∧
    (theLayout ⟨2, [1], fun _ _ => 0⟩ IVMode.column (0, 0) (10, 10)).xs.getD
        ((theLayout ⟨2, [1], fun _ _ => 0⟩ IVMode.column (0, 0) (10, 10)).n - 1)
        0 < 10 := by
  have h := c3_axis_positions_amended ⟨2, [1], fun _ _ => 0⟩ IVMode.column
    (0, 0) (10, 10)
    (theLayout ⟨2, [1], fun _ _ => 0⟩ IVMode.column (0, 0) (10, 10))
    rfl (by decide) (by decide)
  exact ⟨h.2.1, h.2.2.1 0 (by decide), h.2.2.2⟩

/-- **C4**: if the computed `N` is `≤ 0` or reaches `VTK_LARGE_ID`, the
layout fails (`PlaceAxes` returns 0), `N` is reset to 0, and no axes,
ranges, positions or polylines are created: starting from any consistent
actor state, the post-call state has `N = 0`, all four per-axis arrays
null, and the plot data exactly as it was before the call (nothing new
generated). -/
theorem c4_invalid_n_fails_cleanly
    (s : ActorState) (f : FieldData) (mode : IVMode) (p1 p2 : ℤ × ℤ)
    (hs : consistentState s) (hin : s.input = some f)
    (hN : computeN f mode ≤ 0 ∨ VTK_LARGE_ID ≤ computeN f mode) :
    placeAxes (some f) mode p1 p2 = none ∧
    (placeAxesSt s mode p1 p2).n = 0 ∧
    (placeAxesSt s mode p1 p2).axes = none ∧
    (placeAxesSt s mode p1 p2).mins = none ∧
    (placeAxesSt s mode p1 p2).maxs = none ∧
    (placeAxesSt s mode p1 p2).xs = none ∧
    (placeAxesSt s mode p1 p2).plotData = s.plotData := by
  have hfail : placeAxes (some f) mode p1 p2 = none := by
    unfold placeAxes
    simp [hN]
  refine ⟨hfail, ?_⟩
  have hfail' : placeAxes s.input mode p1 p2 = none := by rw [hin]; exact hfail
  rcases hs with ⟨hn, ha, hm, hM, hx⟩ | ⟨hn, a, mn, mx, xl, ha, hm, hM, hx, -⟩
  · simp [placeAxesSt, initializeSt, hfail', ha, hm, hM, hx]
  · simp [placeAxesSt, initializeSt, hfail', ha]

/-- Witness for `c4_invalid_n_fails_cleanly`: a field with zero components
in `BY_COLUMN` mode gives `N = 0`, so the layout fails and the state is the
clean all-null one. -/
theorem c4_invalid_n_fails_cleanly_witness :
    placeAxes (some ⟨0, [], fun _ _ => 0⟩) IVMode.column (0, 0) (1, 1)
      = none ∧
    (placeAxesSt ⟨0, none, none, none, none, [],
      some ⟨0, [], fun _ _ => 0⟩, none⟩ IVMode.column (0, 0) (1, 1)).n = 0 ∧
    (placeAxesSt ⟨0, none, none, none, none, [],
      some ⟨0, [], fun _ _ => 0⟩, none⟩ IVMode.column (0, 0) (1, 1)).axes
      = none ∧
    (placeAxesSt ⟨0, none, none, none, none, [],
      some ⟨0, [], fun _ _ => 0⟩, none⟩ IVMode.column (0, 0) (1, 1)).mins
      = none ∧
    (placeAxesSt ⟨0, none, none, none, none, [],
      some ⟨0, [], fun _ _ => 0⟩, none⟩ IVMode.column (0, 0) (1, 1)).maxs
      = none ∧
    (placeAxesSt ⟨0, none, none, none, none, [],
      some ⟨0, [], fun _ _ => 0⟩, none⟩ IVMode.column (0, 0) (1, 1)).xs
      = none ∧
    (placeAxesSt ⟨0, none, none, none, none, [],
      some ⟨0, [], fun _ _ => 0⟩, none⟩ IVMode.column (0, 0) (1, 1)).plotData
      = [] := by
  exact c4_invalid_n_fails_cleanly
    ⟨0, none, none, none, none, [], some ⟨0, [], fun _ _ => 0⟩, none⟩
    ⟨0, [], fun _ _ => 0⟩ IVMode.column (0, 0) (1, 1)
    (Or.inl ⟨rfl, rfl, rfl, rfl, rfl⟩) rfl (Or.inl (by decide))

/-- Lines 437 and 462: the value fetched for polyline `j`, axis `i`
(`GetComponent(j, i)` in column mode, `GetComponent(i, j)` in row mode). -/
def fetchedValue (f : FieldData) (mode : IVMode) (j i : ℕ) : ℚ :=
  match mode with
  | .column => f.comp j i
  | .row => f.comp i j

theorem vertexY_props (yMin yMax : ℤ) (mn mx v : ℚ) :
    (mx - mn ≠ 0 → vertexY yMin yMax mn mx v =
      (yMin : ℚ) + ((v - mn) / (mx - mn)) * ((yMax : ℚ) - (yMin : ℚ))) ∧
    (mn < mx → yMin < yMax → mx < v →
      (yMax : ℚ) < vertexY yMin yMax mn mx v) := by
  constructor
  · intro h
    unfold vertexY
    rw [if_neg h]
  · intro h1 h2 h3
    have hmn : (0 : ℚ) < mx - mn := by linarith
    unfold vertexY
    rw [if_neg (ne_of_gt hmn)]
    have hr : 1 < (v - mn) / (mx - mn) := by
      rw [lt_div_iff₀ hmn]
      linarith
    have hH : (0 : ℚ) < (yMax : ℚ) - (yMin : ℚ) := by
      have : (yMin : ℚ) < (yMax : ℚ) := by exact_mod_cast h2
      linarith
    have := mul_lt_mul_of_pos_right hr hH
    rw [one_mul] at this
    linarith

/-- **C5**: every generated vertex has `z = 0`; for an axis `i` with a
non-degenerate range, the vertex for value `v` satisfies
`y = Ymin + ((v − min_i)/(max_i − min_i))·(Ymax − Ymin)` exactly (no
clamping), and a value strictly above `max_i` projects strictly above
`Ymax` — in both modes. -/
theorem c5_vertex_formula_and_z_zero
    (f : FieldData) (mode : IVMode) (p1 p2 : ℤ × ℤ) (L : Layout)
    (hL : placeAxes (some f) mode p1 p2 = some L)
    (j i : ℕ) (hj : j < L.cells.length)
    (hi : i < (L.cells.getD j ⟨0, []⟩).pts.length) :
    ((L.cells.getD j ⟨0, []⟩).pts.getD i ⟨0, 0, 0⟩).z = 0 ∧
    (L.maxs.getD i 0 - L.mins.getD i 0 ≠ 0 →
      ((L.cells.getD j ⟨0, []⟩).pts.getD i ⟨0, 0, 0⟩).y =
        (L.yMin : ℚ) + ((fetchedValue f mode j i - L.mins.getD i 0) /
          (L.maxs.getD i 0 - L.mins.getD i 0)) *
          ((L.yMax : ℚ) - (L.yMin : ℚ))) ∧
    (L.mins.getD i 0 < L.maxs.getD i 0 → L.yMin < L.yMax →
      L.maxs.getD i 0 < fetchedValue f mode j i →
      (L.yMax : ℚ) < ((L.cells.getD j ⟨0, []⟩).pts.getD i ⟨0, 0, 0⟩).y) := by
  obtain ⟨-, -, rfl⟩ := placeAxes_some_inv hL
  cases mode with
  | column =>
      have hj' : j < (computeNumRows f).toNat := by
        simpa [theLayout, layoutCells] using hj
      have hcell : (theLayout f .column p1 p2).cells.getD j ⟨0, []⟩ =
          makeCellColumn f f.numComponents (layoutMins f .column)
            (layoutMaxs f .column) (layoutXs f .column p1 p2) p1.2 p2.2 j := by
        simp only [theLayout, layoutCells]
        exact getD_map_range _ _ j hj' _
      have hi' : i < f.numComponents := by
        rw [hcell] at hi
        simpa [makeCellColumn] using hi
      have hpt : ((theLayout f .column p1 p2).cells.getD j
            ⟨0, []⟩).pts.getD i ⟨0, 0, 0⟩ =
          { x := (((layoutXs f .column p1 p2).getD i 0 : ℤ) : ℚ)
            y := vertexY p1.2 p2.2 ((layoutMins f .column).getD i 0)
              ((layoutMaxs f .column).getD i 0) (f.comp j i)
            z := 0 } := by
        rw [hcell]
        simp only [makeCellColumn]
        exact getD_map_range _ _ i hi' _
      rw [hpt]
      have hprops := vertexY_props p1.2 p2.2
        ((layoutMins f .column).getD i 0)
        ((layoutMaxs f .column).getD i 0) (f.comp j i)
      exact ⟨rfl, fun h => hprops.1 h, fun h1 h2 h3 => hprops.2 h1 h2 h3⟩
  | row =>
      have hj' : j < f.numComponents := by
        simpa [theLayout, layoutCells] using hj
      have hcell : (theLayout f .row p1 p2).cells.getD j ⟨0, []⟩ =
          makeCellRow f (computeNumRows f).toNat f.numComponents
            (layoutMins f .row) (layoutMaxs f .row)
            (layoutXs f .row p1 p2) p1.2 p2.2 j := by
        simp only [theLayout, layoutCells]
        exact getD_map_range _ _ j hj' _
      have hi' : i < (computeNumRows f).toNat := by
        rw [hcell] at hi
        simpa [makeCellRow] using hi
      have hpt : ((theLayout f .row p1 p2).cells.getD j
            ⟨0, []⟩).pts.getD i ⟨0, 0, 0⟩ =
          { x := (((layoutXs f .row p1 p2).getD i 0 : ℤ) : ℚ)
            y := vertexY p1.2 p2.2 ((layoutMins f .row).getD i 0)
              ((layoutMaxs f .row).getD i 0) (f.comp i j)
            z := 0 } := by
        rw [hcell]
        simp only [makeCellRow]
        exact getD_map_range _ _ i hi' _
      rw [hpt]
      have hprops := vertexY_props p1.2 p2.2
        ((layoutMins f .row).getD i 0)
        ((layoutMaxs f .row).getD i 0) (f.comp i j)
      exact ⟨rfl, fun h => hprops.1 h, fun h1 h2 h3 => hprops.2 h1 h2 h3⟩

/-- Witness for `c5_vertex_formula_and_z_zero`: a single-column field with
values 0 and 1 over the span `[0, 10]`; the first vertex (value 0 on a
range `[0, 1]`) lands at `y = 0` with `z = 0`. -/
theorem c5_vertex_formula_and_z_zero_witness :
    (((theLayout ⟨1, [2], fun i _ => (i : ℚ)⟩ IVMode.column (0, 0)
          (10, 10)).cells.getD 0 ⟨0, []⟩).pts.getD 0 ⟨0, 0, 0⟩).z = 0 ∧
    (((theLayout ⟨1, [2], fun i _ => (i : ℚ)⟩ IVMode.column (0, 0)
          (10, 10)).cells.getD 0 ⟨0, []⟩).pts.getD 0 ⟨0, 0, 0⟩).y = 0 := by
  have h := c5_vertex_formula_and_z_zero ⟨1, [2], fun i _ => (i : ℚ)⟩
    IVMode.column (0, 0) (10, 10)
    (theLayout ⟨1, [2], fun i _ => (i : ℚ)⟩ IVMode.column (0, 0) (10, 10))
    rfl 0 0 (by decide) (by decide)
  refine ⟨h.1, ?_⟩
  have hne : (theLayout ⟨1, [2], fun i _ => (i : ℚ)⟩ IVMode.column (0, 0)
        (10, 10)).maxs.getD 0 0 -
      (theLayout ⟨1, [2], fun i _ => (i : ℚ)⟩ IVMode.column (0, 0)
        (10, 10)).mins.getD 0 0 ≠ 0 := by
    norm_num [theLayout, layoutMins, layoutMaxs, layoutN, computeN,
      computeNumRows, scanMin, scanMax, axisValues, VTK_LARGE_ID,
      VTK_LARGE_FLOAT, List.range_succ,
      show (1 : ℤ).toNat = 1 from rfl, show (2 : ℤ).toNat = 2 from rfl]
  rw [h.2.1 hne]
  norm_num [theLayout, layoutMins, layoutMaxs, layoutN, computeN,
    computeNumRows, scanMin, scanMax, axisValues, fetchedValue,
    VTK_LARGE_ID, VTK_LARGE_FLOAT, List.range_succ,
    show (1 : ℤ).toNat = 1 from rfl, show (2 : ℤ).toNat = 2 from rfl]

/-- **C6**: after the min/max scan, `Mins[j]` is `≤` and `Maxs[j]` is `≥`
every value the scan observed for range index `j`, in both modes. -/
theorem c6_scan_bounds
    (f : FieldData) (mode : IVMode) (p1 p2 : ℤ × ℤ) (L : Layout)
    (hL : placeAxes (some f) mode p1 p2 = some L)
    (j : ℕ) (hj : j < L.n) (v : ℚ)
    (hv : v ∈ axisValues f mode (computeNumRows f).toNat f.numComponents j) :
    L.mins.getD j 0 ≤ v ∧ v ≤ L.maxs.getD j 0 := by
  obtain ⟨-, -, rfl⟩ := placeAxes_some_inv hL
  simp only [theLayout] at hj ⊢
  have hmins : (layoutMins f mode).getD j 0 =
      scanMin (axisValues f mode (computeNumRows f).toNat
        f.numComponents j) := by
    unfold layoutMins
    exact getD_map_range _ _ j hj 0
  have hmaxs : (layoutMaxs f mode).getD j 0 =
      scanMax (axisValues f mode (computeNumRows f).toNat
        f.numComponents j) := by
    unfold layoutMaxs
    exact getD_map_range _ _ j hj 0
  rw [hmins, hmaxs]
  unfold scanMin scanMax
  exact ⟨foldlMin_le_mem _ _ v hv, mem_le_foldlMax _ _ v hv⟩

/-- Witness for `c6_scan_bounds`: a constant column (value 7) over two rows
has `Mins[0] ≤ 7 ≤ Maxs[0]`. -/
theorem c6_scan_bounds_witness :
    (theLayout ⟨1, [2], fun _ _ => 7⟩ IVMode.column (0, 0)
      (10, 10)).mins.getD 0 0 ≤ 7 ∧
    (7 : ℚ) ≤ (theLayout ⟨1, [2], fun _ _ => 7⟩ IVMode.column (0, 0)
      (10, 10)).maxs.getD 0 0 := by
  have h := c6_scan_bounds ⟨1, [2], fun _ _ => 7⟩ IVMode.column (0, 0)
    (10, 10)
    (theLayout ⟨1, [2], fun _ _ => 7⟩ IVMode.column (0, 0) (10, 10))
    rfl 0 (by decide) 7 ?hv
  · exact h
  case hv =>
    norm_num [axisValues, computeNumRows, VTK_LARGE_ID, List.range_succ,
      show (2 : ℤ).toNat = 2 from rfl]

/-- **C7**: `numRows` is the minimum tuple count over the field's arrays
(provided the field has at least one array and no count reaches
`VTK_LARGE_ID`), and in `BY_ROW` mode this minimum is exactly the computed
`N`; a shorter variable simply lowers the minimum, it is not an error. -/
theorem c7_numrows_is_min_tuple_count
    (f : FieldData) (hne : f.tupleCounts ≠ [])
    (hb : ∀ c ∈ f.tupleCounts, c < VTK_LARGE_ID) :
    computeNumRows f ∈ f.tupleCounts ∧
    (∀ c ∈ f.tupleCounts, computeNumRows f ≤ c) ∧
    computeN f IVMode.row = computeNumRows f := by
  refine ⟨?_, fun c hc => foldlMin_le_mem _ _ c hc, rfl⟩
  rcases foldlMin_eq_init_or_mem f.tupleCounts VTK_LARGE_ID with h | h
  · exfalso
    obtain ⟨c, hc⟩ := List.exists_mem_of_ne_nil f.tupleCounts hne
    have h1 := foldlMin_le_mem f.tupleCounts VTK_LARGE_ID c hc
    rw [h] at h1
    exact absurd h1 (not_le.mpr (hb c hc))
  · exact h

/-- Witness for `c7_numrows_is_min_tuple_count`: tuple counts `[5, 3, 4]`
give `numRows = 3`, which is also `BY_ROW`'s `N`. -/
theorem c7_numrows_is_min_tuple_count_witness :
    computeNumRows ⟨0, [5, 3, 4], fun _ _ => 0⟩ ∈ ([5, 3, 4] : List ℤ) ∧
    computeNumRows ⟨0, [5, 3, 4], fun _ _ => 0⟩ ≤ 3 ∧
    computeN ⟨0, [5, 3, 4], fun _ _ => 0⟩ IVMode.row =
      computeNumRows ⟨0, [5, 3, 4], fun _ _ => 0⟩ := by
  have h := c7_numrows_is_min_tuple_count ⟨0, [5, 3, 4], fun _ _ => 0⟩
    (by decide) (by decide)
  exact ⟨h.1, h.2.1 3 (by decide), h.2.2⟩

/-- **C8**: running the full rebuild twice on the same field, mode and plot
region yields exactly the same actor state as running it once — the layout
and polyline generation are deterministic functions of their inputs, and the
second pass's `Initialize` wipes exactly what the first pass wrote. -/
theorem c8_rebuild_idempotent (s : ActorState) (mode : IVMode)
    (p1 p2 : ℤ × ℤ) :
    placeAxesSt (placeAxesSt s mode p1 p2) mode p1 p2 =
      placeAxesSt s mode p1 p2 := by
  obtain ⟨n, ax, mn, mx, xl, pd, inp, ttl⟩ := s
  cases h : placeAxes inp mode p1 p2 <;> cases ax <;>
    simp [placeAxesSt, initializeSt, h]

/-- **C9**: with no input attached, or with the current `N ≤ 0`,
`RenderOverlay` reports the error and returns 0 without delegating a single
draw — neither the plot actor, the title, nor any axis is rendered. -/
theorem c9_render_overlay_guard
    (s : ActorState) (titleR plotR : ℤ) (axisR : ℕ → ℤ)
    (h : s.input = none ∨ s.n ≤ 0) :
    renderOverlay s titleR plotR axisR =
      { result := 0, errored := true, drawn := [] } := by
  unfold renderOverlay
  rw [if_pos]
  rcases h with h | h
  · exact Or.inl (by simp [h])
  · exact Or.inr h

/-- Witness for `c9_render_overlay_guard`: a state with `N = 5` but no
input renders nothing and returns 0. -/
theorem c9_render_overlay_guard_witness :
    renderOverlay ⟨5, none, none, none, none, [], none, none⟩ 3 4
        (fun _ => 2) =
      { result := 0, errored := true, drawn := [] } :=
  c9_render_overlay_guard ⟨5, none, none, none, none, [], none, none⟩
    3 4 (fun _ => 2) (Or.inl rfl)

/-- **C10**: `Initialize` always restores the all-null `N = 0` state (on
any consistent state); both `Initialize` and `PlaceAxes` preserve the
consistency invariant (`N` and the four per-axis arrays either all null
with `N = 0` or all allocated with length `N > 0`); and `PlaceAxes` behaves
identically whether or not the stale arrays of a prior layout are still
installed, because it runs `Initialize` first. -/
theorem c10_arrays_consistent_invariant
    (s : ActorState) (mode : IVMode) (p1 p2 : ℤ × ℤ)
    (hs : consistentState s) :
    (initializeSt s).n = 0 ∧ (initializeSt s).axes = none ∧
    (initializeSt s).mins = none ∧ (initializeSt s).maxs = none ∧
    (initializeSt s).xs = none ∧
    consistentState (initializeSt s) ∧
    consistentState (placeAxesSt s mode p1 p2) ∧
    placeAxesSt s mode p1 p2 = placeAxesSt (initializeSt s) mode p1 p2 := by
  have hinit : (initializeSt s).n = 0 ∧ (initializeSt s).axes = none ∧
      (initializeSt s).mins = none ∧ (initializeSt s).maxs = none ∧
      (initializeSt s).xs = none := by
    rcases hs with ⟨hn, ha, hm, hM, hx⟩ | ⟨hn, a, mn, mx, xl, ha, hm, hM, hx, -⟩
    · simp [initializeSt, ha, hm, hM, hx]
    · simp [initializeSt, ha]
  refine ⟨hinit.1, hinit.2.1, hinit.2.2.1, hinit.2.2.2.1, hinit.2.2.2.2,
    Or.inl ⟨hinit.1, hinit.2.1, hinit.2.2.1, hinit.2.2.2.1, hinit.2.2.2.2⟩,
    ?_, ?_⟩
  · cases hpa : placeAxes s.input mode p1 p2 with
    | none =>
        left
        refine ⟨by simp [placeAxesSt, hpa], ?_, ?_, ?_, ?_⟩
        · simp [placeAxesSt, hpa, hinit.2.1]
        · simp [placeAxesSt, hpa, hinit.2.2.1]
        · simp [placeAxesSt, hpa, hinit.2.2.2.1]
        · simp [placeAxesSt, hpa, hinit.2.2.2.2]
    | some L =>
        right
        cases hin : s.input with
        | none => rw [hin] at hpa; exact absurd hpa (by simp [placeAxes])
        | some f =>
            rw [hin] at hpa
            obtain ⟨hpos, -, rfl⟩ := placeAxes_some_inv hpa
            have hn0 : 0 < layoutN f mode := by unfold layoutN; omega
            have hlu : placeAxes s.input mode p1 p2 =
                some (theLayout f mode p1 p2) := by rw [hin]; exact hpa
            refine ⟨?_, mkAxes (theLayout f mode p1 p2),
              layoutMins f mode, layoutMaxs f mode, layoutXs f mode p1 p2,
              ?_, ?_, ?_, ?_, ?_, ?_, ?_, ?_⟩
            · simp only [placeAxesSt, hlu, theLayout]
              exact_mod_cast hn0
            · simp [placeAxesSt, hlu, theLayout]
            · simp [placeAxesSt, hlu, theLayout]
            · simp [placeAxesSt, hlu, theLayout]
            · simp [placeAxesSt, hlu, theLayout]
            · simp [placeAxesSt, hlu, theLayout, mkAxes]
            · simp [placeAxesSt, hlu, theLayout, layoutMins]
            · simp [placeAxesSt, hlu, theLayout, layoutMaxs]
            · simp [placeAxesSt, hlu, theLayout, layoutXs]
  · have hiinp : (initializeSt s).input = s.input := by
      unfold initializeSt
      split <;> rfl
    have hii : initializeSt (initializeSt s) = initializeSt s := by
      obtain ⟨n, ax, mn, mx, xl, pd, inp, ttl⟩ := s
      cases ax <;> simp [initializeSt]
    unfold placeAxesSt
    rw [hiinp, hii]

/-- Witness for `c10_arrays_consistent_invariant`: from the constructor's
all-null state (which is consistent), `Initialize` keeps `N = 0` and a
`PlaceAxes` pass leaves a consistent state. -/
theorem c10_arrays_consistent_invariant_witness :
    (initializeSt ⟨0, none, none, none, none, [], none, none⟩).n = 0 ∧
    consistentState (placeAxesSt ⟨0, none, none, none, none, [], none, none⟩
      IVMode.column (0, 0) (1, 1)) := by
  have h := c10_arrays_consistent_invariant
    ⟨0, none, none, none, none, [], none, none⟩ IVMode.column (0, 0) (1, 1)
    (Or.inl ⟨rfl, rfl, rfl, rfl, rfl⟩)
  exact ⟨h.1, h.2.2.2.2.2.2.1⟩

end VTKPC
